import Mathlib

/-!
Verification development for the AI service layer of the legal-document
RAG backend (`src/backend/src/ai/services.py`).

The effectful boundaries (sentence-transformer encoder, Pinecone index,
Groq chat-completion endpoint, wall clock) are modelled as oracles
supplied in an environment record; an `Except Unit _` (or
`Except String _`) value models a call that either returns normally or
raises.  The Python control flow of `AIProcessor` is translated branch
by branch into total Lean functions over these environments.  Scores are
modelled as rationals, Python strings as Lean `String`s.
-/

namespace LegasAI

/-- A similarity match returned by a Pinecone query: `score`, and the
`chunk_index` / `text` entries of its metadata (Python reads them with
`match.get('score', 0)`, `metadata.get('chunk_index', 0)`,
`metadata.get('text', '')`, so the defaulted values are the fields). -/
structure Match where
  score : ℚ
  chunk_index : Nat
  text : String
  deriving Repr, DecidableEq

/-- One entry of the `sources` list of a chat answer:
`{"chunk_index": ..., "score": float(score)}`. -/
structure Source where
  chunk_index : Nat
  score : ℚ
  deriving Repr, DecidableEq

/-- The dictionary returned by `chat_with_document`:
keys `answer`, `sources`, `response_time`. -/
structure ChatAnswer where
  answer : String
  sources : List Source
  response_time : ℚ
  deriving Repr, DecidableEq

/-- The embedding dimension configured in `_init_embeddings`
(`self.embedding_dim = 768`). -/
def embedding_dim : Nat := 768

/-- The validation loop of `AIProcessor._embed`: for each raw vector
produced by the encoder, drop it when it is all zeros
(`if not any(vec_list): continue`) or when its length differs from the
configured dimension (`if len(vec_list) != self.embedding_dim:
continue`); keep the rest in order. -/
def embedFilter (dim : Nat) : List (List ℚ) → List (List ℚ)
  | [] => []
  | v :: rest =>
    if ¬ v.any (fun x => decide (x ≠ 0)) then embedFilter dim rest
    else if v.length ≠ dim then embedFilter dim rest
    else v :: embedFilter dim rest

/-- `AIProcessor._embed`: an empty text list returns `[]` without
calling the encoder; otherwise the encoder (oracle `encode`) produces
raw vectors which are validated by `embedFilter`. -/
def embed (encode : List String → List (List ℚ)) (texts : List String) :
    List (List ℚ) :=
  if texts = [] then [] else embedFilter embedding_dim (encode texts)

/-- The filter predicate of the context-building loop in
`chat_with_document`: `if score > 0.3 and chunk_text:` (a Python string
is truthy iff non-empty). -/
def keepMatch (m : Match) : Prop := m.score > 3/10 ∧ m.text ≠ ""

instance : DecidablePred keepMatch := fun m => by
  unfold keepMatch; infer_instance

/-- The context-building loop of `chat_with_document` (lines 510-524):
walk the matches in index order, appending the chunk text to
`context_chunks` and a `{chunk_index, score}` record to `sources`
exactly when `score > 0.3 and chunk_text`. -/
def buildParts : List Match → List String × List Source
  | [] => ([], [])
  | m :: rest =>
    let p := buildParts rest
    if keepMatch m then (m.text :: p.1, ⟨m.chunk_index, m.score⟩ :: p.2)
    else p

/-- `context = "\n\n".join(context_chunks)`. -/
def contextOf (ms : List Match) : String :=
  String.intercalate "\n\n" (buildParts ms).1

/-- Python's `str.strip()`: remove leading and trailing whitespace.
(Defined on the character list so that it evaluates by `decide`;
`String.trim` agrees but is defined by well-founded recursion on byte
positions.) -/
def pyStrip (s : String) : String :=
  String.mk (((s.data.dropWhile Char.isWhitespace).reverse.dropWhile
    Char.isWhitespace).reverse)

/-- Fixed answer texts of `chat_with_document`. -/
def vdbNotConfiguredAnswer : String :=
  "Vector database is not configured. Please check the AI configuration."

def aiNotConfiguredAnswer : String :=
  "AI model is not configured. Please check the AI configuration."

def failedQuestionAnswer : String :=
  "Failed to process your question. Please try again."

def insufficientInfoAnswer : String :=
  "I cannot find sufficient information in the document to answer this question. The document may not contain relevant information or the embeddings may need to be regenerated."

def chatErrorAnswer : String :=
  "An error occurred while processing your request. Please try again."

/-- Oracle environment for one `chat_with_document` call.
`encodeR` is the result of `self.embedder.encode([question])` (an
`Except` error models the call raising); `query k f` is the result of
`self.index.query` with `top_k = k` and, for `f = some d`, the filter
`{"document_id": {"$eq": d}}` (for `f = none`, no filter); `groq ctx`
is the result of `_call_groq_api` on the prompt built from context
`ctx`; `elapsed` is the wall-clock duration `time.time() - start`. -/
structure ChatEnv where
  indexConfigured : Bool
  clientConfigured : Bool
  encodeR : Except Unit (List (List ℚ))
  query : Nat → Option Nat → Except Unit (List Match)
  groq : String → Except Unit String
  elapsed : ℚ

/-- The tail of `chat_with_document` once a match list is fixed:
build the context and sources; refuse when the context is empty or its
trimmed length is below 50; otherwise call the model on the context and
return its text together with the first 5 sources.  A raise inside the
model call is caught by the top-level `except`.  The second component
records the `(top_k, filter)` arguments of the index queries that were
issued before this point. -/
def chatFinish (env : ChatEnv) (ms : List Match)
    (queried : List (Nat × Option Nat)) :
    ChatAnswer × List (Nat × Option Nat) :=
  let parts := buildParts ms
  let context := String.intercalate "\n\n" parts.1
  if context = "" ∨ (pyStrip context).length < 50 then
    (⟨insufficientInfoAnswer, [], env.elapsed⟩, queried)
  else
    match env.groq context with
    | .error _ => (⟨chatErrorAnswer, [], env.elapsed⟩, queried)
    | .ok text => (⟨text, parts.2.take 5, env.elapsed⟩, queried)

/-- `AIProcessor.chat_with_document`, instrumented: the result dict
together with the list of `(top_k, filter)` arguments passed to
`self.index.query`.  Mirrors the source order: Pinecone availability
check, Groq availability check, query embedding, scoped query with
`top_k=8` and a `document_id` equality filter, on failure one unscoped
fallback query with `top_k=5`, on a second failure `matches = []`;
then `chatFinish`. -/
def chatCore (docId : Nat) (env : ChatEnv) :
    ChatAnswer × List (Nat × Option Nat) :=
  if ¬ env.indexConfigured then
    (⟨vdbNotConfiguredAnswer, [], env.elapsed⟩, [])
  else if ¬ env.clientConfigured then
    (⟨aiNotConfiguredAnswer, [], env.elapsed⟩, [])
  else
    match env.encodeR with
    | .error _ => (⟨chatErrorAnswer, [], env.elapsed⟩, [])
    | .ok raws =>
      let query_vectors := embedFilter embedding_dim raws
      if query_vectors = [] then
        (⟨failedQuestionAnswer, [], env.elapsed⟩, [])
      else
        match env.query 8 (some docId) with
        | .ok ms => chatFinish env ms [(8, some docId)]
        | .error _ =>
          match env.query 5 none with
          | .ok ms =>
            chatFinish env ms [(8, some docId), (5, none)]
          | .error _ =>
            chatFinish env [] [(8, some docId), (5, none)]

/-- The `ChatAnswer` returned by `chat_with_document`. -/
def chat_with_document (docId : Nat) (env : ChatEnv) : ChatAnswer :=
  (chatCore docId env).1

/-- The `(top_k, filter)` arguments of the index queries issued by a
`chat_with_document` call. -/
def chatQueries (docId : Nat) (env : ChatEnv) : List (Nat × Option Nat) :=
  (chatCore docId env).2

/-! ## Document analysis (`AIProcessor.analyze_document`) -/

/-- The dictionary returned by `analyze_document`: the five analysis
keys, `processing_time`, and the optional `error` key added only on
failure paths. -/
structure AnalysisResult where
  summary : String
  key_points : List String
  clauses : List String
  risks : List String
  recommendations : List String
  processing_time : ℚ
  error : Option String
  deriving Repr, DecidableEq

/-- `AIProcessor._fallback_analysis` (a fresh dict, no `error` key). -/
def fallback_analysis : AnalysisResult :=
  { summary := "Analysis unavailable. Manual legal review required."
    key_points := []
    clauses := []
    risks := []
    recommendations := ["Manual legal review required"]
    processing_time := 0
    error := none }

/-- The JSON object parsed from the model's (cleaned) response: the
five expected keys, each possibly absent (`data.setdefault` backfills
the absent ones). -/
structure RawAnalysis where
  summary : Option String
  key_points : Option (List String)
  clauses : Option (List String)
  risks : Option (List String)
  recommendations : Option (List String)
  deriving Repr, DecidableEq

/-- Oracle environment for one `analyze_document` call.  `groq` models
`_call_groq_api` (error = the call raised, carrying `str(e)`); `parse`
models `json.loads` applied to the code-fence-stripped response (error
= `JSONDecodeError`, carrying `str(e)`); `elapsed` is
`time.time() - start`. -/
structure AnalyzeEnv where
  clientConfigured : Bool
  text : String
  groq : Except String String
  parse : String → Except String RawAnalysis
  elapsed : ℚ

/-- `AIProcessor.analyze_document`: fallback immediately when the Groq
client is missing or the text is blank; otherwise call the model, parse
its response, backfill missing keys with `""` / `[]` and set
`processing_time`; on `JSONDecodeError` or any other exception return
the fallback augmented with `error` and the elapsed time. -/
def analyze_document (env : AnalyzeEnv) : AnalysisResult :=
  if ¬ env.clientConfigured ∨ pyStrip env.text = "" then fallback_analysis
  else
    match env.groq with
    | .error e =>
      { fallback_analysis with processing_time := env.elapsed, error := some e }
    | .ok response =>
      match env.parse response with
      | .error e =>
        { fallback_analysis with
            processing_time := env.elapsed
            error := some ("AI response parsing failed: " ++ e) }
      | .ok data =>
        { summary := data.summary.getD ""
          key_points := data.key_points.getD []
          clauses := data.clauses.getD []
          risks := data.risks.getD []
          recommendations := data.recommendations.getD []
          processing_time := env.elapsed
          error := none }

/-! ## Embedding storage (`AIProcessor.store_document_embeddings`) -/

/-- One record of the Pinecone upsert payload, as built in the payload
loop: id `"doc-{document_id}-chunk-{i}"`, the vector, and the metadata
dict (document id, chunk index, cleaned text truncated to 800
characters, chunk length, plus the caller-supplied metadata pairs). -/
structure PineRecord where
  id : String
  values : List ℚ
  document_id : Nat
  chunk_index : Nat
  text : String
  chunk_length : Nat
  extra : List (String × String)
  deriving Repr, DecidableEq

/-- The record built for chunk `chunk` with vector `vec` at position
`i`: `clean_chunk = chunk.replace('\n', ' ').strip()`, truncated to 800
characters for the metadata. -/
def mkRecord (docId : Nat) (extra : List (String × String)) (i : Nat)
    (chunk : String) (vec : List ℚ) : PineRecord :=
  { id := "doc-" ++ toString docId ++ "-chunk-" ++ toString i
    values := vec
    document_id := docId
    chunk_index := i
    text := (pyStrip (chunk.replace "\n" " ")).take 800
    chunk_length := chunk.length
    extra := extra }

/-- `for i in range(0, len(payload), batch_size)` with
`batch_size = 50`: the successive slices `payload[i:i+50]`. -/
def batches50 (l : List PineRecord) : List (List PineRecord) :=
  if h : l = [] then []
  else l.take 50 :: batches50 (l.drop 50)
  termination_by l.length
  decreasing_by
    simp only [List.length_drop]
    exact Nat.sub_lt (List.length_pos.mpr h) (by norm_num)

/-- Oracle environment for one `store_document_embeddings` call.
`chunksR` is `self.splitter.split_text(text)` (error = raised);
`encodeR` is `self.embedder.encode(chunks)`; `upsert b` tells whether
`self.index.upsert(vectors=b)` returns normally; `verify f` is the
verification `self.index.query(..., top_k=1, filter=f)`, handing back
the match list (error = raised). -/
structure StoreEnv where
  indexConfigured : Bool
  text : String
  chunksR : Except Unit (List String)
  encodeR : Except Unit (List (List ℚ))
  upsert : List PineRecord → Bool
  verify : Option Nat → Except Unit (List Match)

/-- The payload-preparation block of `store_document_embeddings`: when
the vector and chunk counts differ both lists are truncated to the
common minimum (`min_len`), then `enumerate(zip(chunks, vectors))`
yields one `PineRecord` per pair. -/
def storePayload (docId : Nat) (extra : List (String × String))
    (chunks : List String) (vectors : List (List ℚ)) : List PineRecord :=
  let n := min vectors.length chunks.length
  let vectors' := if vectors.length ≠ chunks.length then vectors.take n else vectors
  let chunks' := if vectors.length ≠ chunks.length then chunks.take n else chunks
  (chunks'.zip vectors').enum.map (fun p => mkRecord docId extra p.1 p.2.1 p.2.2)

/-- `AIProcessor.store_document_embeddings`: `False` when the index is
unavailable or the text is blank; split into chunks (`False` when none,
or when the splitter raises); embed and validate (`False` when no valid
vector, or when the encoder raises); truncate chunks and vectors to the
common length and build the payload; upload in batches of 50 (a raise
in any batch is caught, `False`); after upload, verify with a query
scoped to the document id and return `True` iff it yields a match.
The Python function catches every exception and returns a boolean, so
its model is a total `Bool`-valued function. -/
def store_document_embeddings (docId : Nat) (extra : List (String × String))
    (env : StoreEnv) : Bool :=
  if ¬ env.indexConfigured then false
  else if env.text = "" ∨ pyStrip env.text = "" then false
  else
    match env.chunksR with
    | .error _ => false
    | .ok chunks =>
      if chunks.length = 0 then false
      else
        match env.encodeR with
        | .error _ => false
        | .ok raws =>
          let vectors := embedFilter embedding_dim raws
          if vectors.length = 0 then false
          else
            let payload := storePayload docId extra chunks vectors
            if payload.length = 0 then false
            else if (batches50 payload).all env.upsert then
              match env.verify (some docId) with
              | .error _ => false
              | .ok found => decide (found ≠ [])
            else false

/-! ## Helper lemmas -/

/-- The matches surviving the chat similarity/text filter, written as a
list filter. -/
def survivors (ms : List Match) : List Match :=
  ms.filter fun m => decide (keepMatch m)

/-- The `sources` entry built for a surviving match. -/
def toSource (m : Match) : Source := ⟨m.chunk_index, m.score⟩

lemma buildParts_eq (ms : List Match) :
    buildParts ms = ((survivors ms).map Match.text, (survivors ms).map toSource) := by
  induction ms with
  | nil => rfl
  | cons m rest ih =>
    by_cases h : keepMatch m
    · simp [buildParts, survivors, List.filter_cons, h, toSource] at ih ⊢
      exact ⟨congrArg Prod.fst ih, congrArg Prod.snd ih⟩
    · simpa [buildParts, survivors, List.filter_cons, h] using ih

lemma mem_survivors (m : Match) (ms : List Match) :
    m ∈ survivors ms ↔ m ∈ ms ∧ m.score > 3/10 ∧ m.text ≠ "" := by
  simp [survivors, List.mem_filter, keepMatch]

lemma embedFilter_eq_filter (dim : Nat) (l : List (List ℚ)) :
    embedFilter dim l =
      l.filter fun v => v.any (fun x => decide (x ≠ 0)) && decide (v.length = dim) := by
  induction l with
  | nil => rfl
  | cons v rest ih =>
    simp only [embedFilter, List.filter_cons]
    by_cases h1 : (v.any fun x => decide (x ≠ 0)) = true
    · by_cases h2 : v.length = dim
      · rw [if_neg (not_not_intro h1), if_neg (not_not_intro h2), ih,
          if_pos (by rw [h1, decide_eq_true h2]; rfl)]
      · rw [if_neg (not_not_intro h1), if_pos h2, ih, if_neg (by simp [h2])]
    · rw [if_pos h1, ih, if_neg (by rw [Bool.and_eq_true]; exact fun hc => h1 hc.1)]

lemma storePayload_length (docId : Nat) (extra : List (String × String))
    (chunks : List String) (vectors : List (List ℚ)) :
    (storePayload docId extra chunks vectors).length =
      min vectors.length chunks.length := by
  by_cases h : vectors.length = chunks.length
  · simp [storePayload, h, List.length_zip]
  · simp only [storePayload, h, ne_eq, not_false_iff, if_true, if_pos,
      List.length_map, List.enum_length, List.length_zip, List.length_take]
    omega

lemma batches50_sizes_aux (n : Nat) :
    ∀ l : List PineRecord, l.length ≤ n → ∀ b ∈ batches50 l, b.length ≤ 50 := by
  induction n with
  | zero =>
    intro l hl b hb
    have hnil : l = [] := List.length_eq_zero.1 (Nat.le_zero.1 hl)
    subst hnil
    rw [batches50] at hb
    simp at hb
  | succ n ih =>
    intro l hl b hb
    by_cases h : l = []
    · subst h; rw [batches50] at hb; simp at hb
    · rw [batches50, dif_neg h] at hb
      rcases List.mem_cons.1 hb with rfl | hb'
      · simpa [List.length_take] using Nat.min_le_left 50 l.length
      · refine ih (l.drop 50) ?_ b hb'
        have hpos : 0 < l.length := List.length_pos.2 h
        simp only [List.length_drop]
        omega

lemma batches50_sizes (l : List PineRecord) : ∀ b ∈ batches50 l, b.length ≤ 50 :=
  batches50_sizes_aux l.length l le_rfl

/-! ## Claims -/

/-- C2: in chat, a match contributes to the grounding context and to
`sources` iff its score is strictly above 0.3 and its stored text is
non-empty; the surviving chunk texts are concatenated in index order
separated by blank lines, and `sources` pairs `{chunk_index, score}` in
the same order. -/
theorem chat_filter_and_order (ms : List Match) :
    (buildParts ms).1 = (survivors ms).map Match.text ∧
    (buildParts ms).2 = (survivors ms).map toSource ∧
    (∀ m : Match, m ∈ survivors ms ↔ m ∈ ms ∧ m.score > 3/10 ∧ m.text ≠ "") ∧
    contextOf ms = String.intercalate "\n\n" ((survivors ms).map Match.text) := by
  refine ⟨?_, ?_, fun m => mem_survivors m ms, ?_⟩
  · rw [buildParts_eq]
  · rw [buildParts_eq]
  · rw [contextOf, buildParts_eq]

/-- C8: every vector returned by `_embed` has length exactly 768 and is
not all-zero; invalid raw vectors are dropped (the output is the
validity filter of the encoder's output, so it may be shorter than the
input); an empty text list yields `[]` without invoking the encoder. -/
theorem embed_dimension_invariant (encode : List String → List (List ℚ))
    (texts : List String) :
    (∀ v ∈ embed encode texts, v.length = embedding_dim ∧ ∃ x ∈ v, x ≠ 0) ∧
    (texts ≠ [] →
      embed encode texts = (encode texts).filter
        fun v => v.any (fun x => decide (x ≠ 0)) && decide (v.length = embedding_dim)) ∧
    (∀ e₂ : List String → List (List ℚ), embed e₂ [] = []) := by
  refine ⟨?_, ?_, fun _ => rfl⟩
  · intro v hv
    unfold embed at hv
    split at hv
    · simp at hv
    · rw [embedFilter_eq_filter] at hv
      obtain ⟨-, hp⟩ := List.mem_filter.1 hv
      simp only [Bool.and_eq_true, List.any_eq_true, decide_eq_true_eq] at hp
      exact ⟨hp.2, hp.1⟩
  · intro h
    unfold embed
    rw [if_neg h, embedFilter_eq_filter]

set_option maxRecDepth 8192 in
/-- Witness for C8 at a concrete encoder: the invalid all-zero raw
vector is dropped, the valid one survives. -/
theorem embed_dimension_invariant_witness :
    (["q"] : List String) ≠ [] ∧
    embed (fun _ => [List.replicate 768 (1 : ℚ), [0, 0]]) ["q"] =
      [List.replicate 768 (1 : ℚ)] := by
  refine ⟨by simp, ?_⟩
  rw [(embed_dimension_invariant (fun _ => [List.replicate 768 (1 : ℚ), [0, 0]])
        ["q"]).2.1 (by simp)]
  decide

/-- C10: the Pinecone availability check precedes the Groq availability
check: whenever the index handle is `None`, chat returns the
vector-database message with empty sources regardless of the Groq
client, and that message differs from the model-not-configured one. -/
theorem chat_vdb_check_first (docId : Nat) (env : ChatEnv)
    (h : env.indexConfigured = false) :
    chat_with_document docId env = ⟨vdbNotConfiguredAnswer, [], env.elapsed⟩ ∧
    vdbNotConfiguredAnswer ≠ aiNotConfiguredAnswer := by
  refine ⟨?_, by decide⟩
  unfold chat_with_document chatCore
  rw [h]
  simp

/-- Witness environment for C10: both dependencies unconfigured. -/
def envC10 : ChatEnv :=
  { indexConfigured := false
    clientConfigured := false
    encodeR := .ok []
    query := fun _ _ => .error ()
    groq := fun _ => .error ()
    elapsed := 0 }

/-- Witness for C10: with neither the index nor the model configured,
the vector-database message wins. -/
theorem chat_vdb_check_first_witness :
    envC10.indexConfigured = false ∧ envC10.clientConfigured = false ∧
    chat_with_document 1 envC10 = ⟨vdbNotConfiguredAnswer, [], 0⟩ :=
  ⟨rfl, rfl, (chat_vdb_check_first 1 envC10 rfl).1⟩

/-- C7: when the Groq client is unconfigured or the text is blank,
`analyze_document` returns exactly the canned fallback (zero
`processing_time`, no `error` key) and is independent of the model and
parser oracles (they are not called). -/
theorem analyze_blank_fallback (env : AnalyzeEnv)
    (h : ¬ env.clientConfigured ∨ pyStrip env.text = "") :
    analyze_document env =
      { summary := "Analysis unavailable. Manual legal review required."
        key_points := []
        clauses := []
        risks := []
        recommendations := ["Manual legal review required"]
        processing_time := 0
        error := none } ∧
    ∀ (g : Except String String) (p : String → Except String RawAnalysis),
      analyze_document { env with groq := g, parse := p } =
        analyze_document env := by
  obtain ⟨c, t, gr, pa, el⟩ := env
  refine ⟨?_, ?_⟩
  · simp only [analyze_document]
    rw [if_pos h]
    rfl
  · intro g p
    simp only [analyze_document]
    rw [if_pos h, if_pos h]

/-- Witness environment for C7: whitespace-only input. -/
def envC7 : AnalyzeEnv :=
  { clientConfigured := true
    text := "   "
    groq := .ok "should not matter"
    parse := fun _ => .error "should not matter"
    elapsed := 7 }

/-- Witness for C7: `analyze` on whitespace-only text yields the exact
canned fallback. -/
theorem analyze_blank_fallback_witness :
    (¬ envC7.clientConfigured ∨ pyStrip envC7.text = "") ∧
    analyze_document envC7 =
      { summary := "Analysis unavailable. Manual legal review required."
        key_points := []
        clauses := []
        risks := []
        recommendations := ["Manual legal review required"]
        processing_time := 0
        error := none } :=
  ⟨Or.inr (by decide), (analyze_blank_fallback envC7 (Or.inr (by decide))).1⟩

/-- C6: on the non-fallback path every `analyze_document` result is
fully populated: a raised model call or a JSON parse failure yields the
fallback augmented with `error` and the elapsed time; a parsed object
has its missing keys backfilled with `""` (summary) or `[]` (the list
keys) and carries no `error` key. -/
theorem analyze_fully_populated (env : AnalyzeEnv)
    (hc : env.clientConfigured = true) (ht : ¬ pyStrip env.text = "") :
    (∀ e, env.groq = .error e →
      analyze_document env =
        { fallback_analysis with processing_time := env.elapsed, error := some e }) ∧
    (∀ r e, env.groq = .ok r → env.parse r = .error e →
      analyze_document env =
        { fallback_analysis with
            processing_time := env.elapsed
            error := some ("AI response parsing failed: " ++ e) }) ∧
    (∀ r d, env.groq = .ok r → env.parse r = .ok d →
      analyze_document env =
        { summary := d.summary.getD ""
          key_points := d.key_points.getD []
          clauses := d.clauses.getD []
          risks := d.risks.getD []
          recommendations := d.recommendations.getD []
          processing_time := env.elapsed
          error := none }) := by
  have hcond : ¬ (¬ env.clientConfigured ∨ pyStrip env.text = "") := by
    simp [hc, ht]
  refine ⟨?_, ?_, ?_⟩
  · intro e he
    simp only [analyze_document, he]
    rw [if_neg hcond]
  · intro r e hr hp
    simp only [analyze_document, hr, hp]
    rw [if_neg hcond]
  · intro r d hr hp
    simp only [analyze_document, hr, hp]
    rw [if_neg hcond]

/-- Witness environment for C6: a model call that raises. -/
def envC6 : AnalyzeEnv :=
  { clientConfigured := true
    text := "contract text"
    groq := .error "boom"
    parse := fun _ => .ok ⟨none, none, none, none, none⟩
    elapsed := 3 }

lemma chatCore_scoped (docId : Nat) (env : ChatEnv) (raws : List (List ℚ))
    (ms : List Match)
    (hidx : env.indexConfigured = true) (hcl : env.clientConfigured = true)
    (henc : env.encodeR = .ok raws)
    (hvec : embedFilter embedding_dim raws ≠ [])
    (hq : env.query 8 (some docId) = .ok ms) :
    chatCore docId env = chatFinish env ms [(8, some docId)] := by
  simp [chatCore, hidx, hcl, henc, hq, hvec]

lemma chatCore_fallback (docId : Nat) (env : ChatEnv) (raws : List (List ℚ))
    (ms : List Match)
    (hidx : env.indexConfigured = true) (hcl : env.clientConfigured = true)
    (henc : env.encodeR = .ok raws)
    (hvec : embedFilter embedding_dim raws ≠ [])
    (hq1 : env.query 8 (some docId) = .error ())
    (hq2 : env.query 5 none = .ok ms) :
    chatCore docId env = chatFinish env ms [(8, some docId), (5, none)] := by
  simp [chatCore, hidx, hcl, henc, hq1, hq2, hvec]

lemma chatCore_bothFail (docId : Nat) (env : ChatEnv) (raws : List (List ℚ))
    (hidx : env.indexConfigured = true) (hcl : env.clientConfigured = true)
    (henc : env.encodeR = .ok raws)
    (hvec : embedFilter embedding_dim raws ≠ [])
    (hq1 : env.query 8 (some docId) = .error ())
    (hq2 : env.query 5 none = .error ()) :
    chatCore docId env = chatFinish env [] [(8, some docId), (5, none)] := by
  simp [chatCore, hidx, hcl, henc, hq1, hq2, hvec]

lemma contextOf_eq (ms : List Match) :
    String.intercalate "\n\n" (buildParts ms).1 = contextOf ms := rfl

lemma chatFinish_short (env : ChatEnv) (ms : List Match)
    (queried : List (Nat × Option Nat))
    (h : contextOf ms = "" ∨ (pyStrip (contextOf ms)).length < 50) :
    chatFinish env ms queried =
      (⟨insufficientInfoAnswer, [], env.elapsed⟩, queried) := by
  simp only [chatFinish, contextOf_eq]
  rw [if_pos h]

lemma chatFinish_ok (env : ChatEnv) (ms : List Match)
    (queried : List (Nat × Option Nat)) (resp : String)
    (hlong : ¬ (contextOf ms = "" ∨ (pyStrip (contextOf ms)).length < 50))
    (hg : env.groq (contextOf ms) = .ok resp) :
    chatFinish env ms queried =
      (⟨resp, ((survivors ms).map toSource).take 5, env.elapsed⟩, queried) := by
  simp only [chatFinish, contextOf_eq]
  rw [if_neg hlong, hg, buildParts_eq]

lemma chatFinish_err (env : ChatEnv) (ms : List Match)
    (queried : List (Nat × Option Nat))
    (hlong : ¬ (contextOf ms = "" ∨ (pyStrip (contextOf ms)).length < 50))
    (hg : env.groq (contextOf ms) = .error ()) :
    chatFinish env ms queried =
      (⟨chatErrorAnswer, [], env.elapsed⟩, queried) := by
  simp only [chatFinish, contextOf_eq]
  rw [if_neg hlong, hg]

lemma chatFinish_queried (env : ChatEnv) (ms : List Match)
    (queried : List (Nat × Option Nat)) :
    (chatFinish env ms queried).2 = queried := by
  simp only [chatFinish]
  split
  · rfl
  · split <;> rfl

/-- Witness for C6: a raised model call becomes the fallback plus an
`error` key and the elapsed time. -/
theorem analyze_fully_populated_witness :
    envC6.clientConfigured = true ∧ ¬ pyStrip envC6.text = "" ∧
    envC6.groq = .error "boom" ∧
    analyze_document envC6 =
      { fallback_analysis with processing_time := 3, error := some "boom" } :=
  ⟨rfl, by decide, rfl,
    (analyze_fully_populated envC6 rfl (by decide)).1 "boom" rfl⟩

/-- C3: when the assembled grounding context is empty or its stripped
length is below 50 characters, chat returns the fixed insufficient-
information answer with empty sources, and the generative model is not
called (the result is independent of the Groq oracle). -/
theorem chat_insufficient_context_refusal (docId : Nat) (env : ChatEnv)
    (raws : List (List ℚ)) (ms : List Match)
    (hidx : env.indexConfigured = true) (hcl : env.clientConfigured = true)
    (henc : env.encodeR = .ok raws)
    (hvec : embedFilter embedding_dim raws ≠ [])
    (hq : env.query 8 (some docId) = .ok ms)
    (hshort : contextOf ms = "" ∨ (pyStrip (contextOf ms)).length < 50) :
    chat_with_document docId env = ⟨insufficientInfoAnswer, [], env.elapsed⟩ ∧
    ∀ g : String → Except Unit String,
      chat_with_document docId { env with groq := g } =
        ⟨insufficientInfoAnswer, [], env.elapsed⟩ := by
  constructor
  · unfold chat_with_document
    rw [chatCore_scoped docId env raws ms hidx hcl henc hvec hq,
      chatFinish_short env ms _ hshort]
  · intro g
    unfold chat_with_document
    rw [chatCore_scoped docId { env with groq := g } raws ms hidx hcl henc hvec hq,
      chatFinish_short { env with groq := g } ms _ hshort]

/-- Witness match for C3: a surviving chunk whose text is shorter than
50 characters. -/
def mC3 : LegasAI.Match := ⟨8/10, 0, "Short text."⟩

/-- Witness environment for C3. -/
def envC3 : ChatEnv :=
  { indexConfigured := true
    clientConfigured := true
    encodeR := .ok [List.replicate 768 (1 : ℚ)]
    query := fun k f => if k = 8 ∧ f = some 1 then .ok [mC3] else .error ()
    groq := fun _ => .ok "must never be used"
    elapsed := 1 }

set_option maxRecDepth 8192 in
/-- Witness for C3: an 11-character context triggers the refusal. -/
theorem chat_insufficient_context_refusal_witness :
    envC3.query 8 (some 1) = .ok [mC3] ∧
    (contextOf [mC3] = "" ∨ (pyStrip (contextOf [mC3])).length < 50) ∧
    chat_with_document 1 envC3 = ⟨insufficientInfoAnswer, [], 1⟩ := by
  have hku : keepMatch ⟨8/10, 0, "Short text."⟩ := ⟨by norm_num, by decide⟩
  have hbp : buildParts [mC3] = (["Short text."], [⟨0, 8/10⟩]) := by
    simp [buildParts, mC3, hku]
  have hctx : contextOf [mC3] = "Short text." := by
    show String.intercalate "\n\n" (buildParts [mC3]).1 = "Short text."
    rw [hbp]
    rfl
  have hshort : contextOf [mC3] = "" ∨ (pyStrip (contextOf [mC3])).length < 50 := by
    rw [hctx]
    right
    decide
  exact ⟨rfl, hshort,
    (chat_insufficient_context_refusal 1 envC3 [List.replicate 768 (1 : ℚ)]
      [mC3] rfl rfl rfl (by decide) rfl hshort).1⟩

/-- C1: on the path that reaches the generative model, the returned
`sources` list is the first 5 entries of the filtered matches, and if
the index returned its matches in descending-score order (as Pinecone
does) then `sources` is in descending-score order as well. -/
theorem chat_sources_top5_sorted (docId : Nat) (env : ChatEnv)
    (raws : List (List ℚ)) (ms : List Match) (resp : String)
    (hidx : env.indexConfigured = true) (hcl : env.clientConfigured = true)
    (henc : env.encodeR = .ok raws)
    (hvec : embedFilter embedding_dim raws ≠ [])
    (hq : env.query 8 (some docId) = .ok ms)
    (hlong : ¬ (contextOf ms = "" ∨ (pyStrip (contextOf ms)).length < 50))
    (hg : env.groq (contextOf ms) = .ok resp) :
    chat_with_document docId env =
      ⟨resp, ((survivors ms).map toSource).take 5, env.elapsed⟩ ∧
    ((ms.Pairwise fun a b => a.score ≥ b.score) →
      (chat_with_document docId env).sources.Pairwise
        fun a b => a.score ≥ b.score) := by
  have he : chat_with_document docId env =
      ⟨resp, ((survivors ms).map toSource).take 5, env.elapsed⟩ := by
    unfold chat_with_document
    rw [chatCore_scoped docId env raws ms hidx hcl henc hvec hq,
      chatFinish_ok env ms _ resp hlong hg]
  refine ⟨he, fun hsort => ?_⟩
  rw [he]
  have h1 : (survivors ms).Pairwise fun a b => a.score ≥ b.score :=
    hsort.filter _
  have h2 : ((survivors ms).map toSource).Pairwise
      fun a b => a.score ≥ b.score := List.pairwise_map.2 h1
  exact h2.sublist (List.take_sublist 5 _)

/-- Witness match for C1: one surviving chunk with a long text. -/
def mC1 : LegasAI.Match :=
  ⟨9/10, 2,
    "This clause obligates the tenant to pay rent on the first day of each month."⟩

/-- Witness environment for C1. -/
def envC1 : ChatEnv :=
  { indexConfigured := true
    clientConfigured := true
    encodeR := .ok [List.replicate 768 (1 : ℚ)]
    query := fun k f => if k = 8 ∧ f = some 1 then .ok [mC1] else .error ()
    groq := fun _ => .ok "The rent is due on the first."
    elapsed := 2 }

set_option maxRecDepth 8192 in
/-- Witness for C1 on a concrete one-match retrieval. -/
theorem chat_sources_top5_sorted_witness :
    envC1.query 8 (some 1) = .ok [mC1] ∧
    ¬ (contextOf [mC1] = "" ∨ (pyStrip (contextOf [mC1])).length < 50) ∧
    chat_with_document 1 envC1 =
      ⟨"The rent is due on the first.", [⟨2, 9/10⟩], 2⟩ := by
  have hku : keepMatch
      ⟨9/10, 2,
        "This clause obligates the tenant to pay rent on the first day of each month."⟩ :=
    ⟨by norm_num, by decide⟩
  have hbp : buildParts [mC1] = ([mC1.text], [⟨2, 9/10⟩]) := by
    simp [buildParts, mC1, hku]
  have hctx : contextOf [mC1] = mC1.text := by
    show String.intercalate "\n\n" (buildParts [mC1]).1 = mC1.text
    rw [hbp]
    rfl
  have hlong :
      ¬ (contextOf [mC1] = "" ∨ (pyStrip (contextOf [mC1])).length < 50) := by
    rw [hctx]
    decide
  have hsur : ((survivors [mC1]).map toSource).take 5 =
      [(⟨2, 9/10⟩ : Source)] := by
    simp [survivors, List.filter_cons, mC1, hku, toSource]
  refine ⟨rfl, hlong, ?_⟩
  rw [(chat_sources_top5_sorted 1 envC1 [List.replicate 768 (1 : ℚ)] [mC1]
    "The rent is due on the first." rfl rfl rfl (by decide) rfl hlong rfl).1,
    hsur]
  rfl

/-- C5: the chat orchestrator is total over every oracle behavior: it
always yields a structurally complete `ChatAnswer` (fields `answer`,
`sources`, `response_time`), and an exception raised by the encoder or
by the model call is converted into the fixed error answer with empty
sources. -/
theorem chat_never_raises (docId : Nat) (env : ChatEnv) :
    (∃ a s t, chat_with_document docId env = ⟨a, s, t⟩) ∧
    (env.indexConfigured = true → env.clientConfigured = true →
      env.encodeR = .error () →
      chat_with_document docId env = ⟨chatErrorAnswer, [], env.elapsed⟩) ∧
    (∀ raws ms, env.indexConfigured = true → env.clientConfigured = true →
      env.encodeR = .ok raws → embedFilter embedding_dim raws ≠ [] →
      env.query 8 (some docId) = .ok ms →
      ¬ (contextOf ms = "" ∨ (pyStrip (contextOf ms)).length < 50) →
      env.groq (contextOf ms) = .error () →
      chat_with_document docId env = ⟨chatErrorAnswer, [], env.elapsed⟩) := by
  refine ⟨⟨_, _, _, rfl⟩, ?_, ?_⟩
  · intro hidx hcl henc
    unfold chat_with_document chatCore
    simp [hidx, hcl, henc]
  · intro raws ms hidx hcl henc hvec hq hlong hg
    unfold chat_with_document
    rw [chatCore_scoped docId env raws ms hidx hcl henc hvec hq,
      chatFinish_err env ms _ hlong hg]

/-- Witness environment for C5: the encoder raises. -/
def envC5 : ChatEnv :=
  { indexConfigured := true
    clientConfigured := true
    encodeR := .error ()
    query := fun _ _ => .error ()
    groq := fun _ => .error ()
    elapsed := 0 }

/-- Witness for C5: an encoder exception becomes the fixed error
answer. -/
theorem chat_never_raises_witness :
    envC5.encodeR = .error () ∧
    chat_with_document 1 envC5 = ⟨chatErrorAnswer, [], 0⟩ :=
  ⟨rfl, (chat_never_raises 1 envC5).2.1 rfl rfl rfl⟩

/-- C9: retrieval is always attempted first with `top_k = 8` scoped to
the document id by an equality filter; if that query raises, exactly one
unscoped fallback query is issued and chat continues with its matches;
if the fallback also raises, chat continues with zero matches instead of
failing. -/
theorem chat_query_scoping_and_fallback (docId : Nat) (env : ChatEnv)
    (raws : List (List ℚ))
    (hidx : env.indexConfigured = true) (hcl : env.clientConfigured = true)
    (henc : env.encodeR = .ok raws)
    (hvec : embedFilter embedding_dim raws ≠ []) :
    (∀ ms, env.query 8 (some docId) = .ok ms →
      chatQueries docId env = [(8, some docId)] ∧
      chat_with_document docId env = (chatFinish env ms [(8, some docId)]).1) ∧
    (∀ ms, env.query 8 (some docId) = .error () → env.query 5 none = .ok ms →
      chatQueries docId env = [(8, some docId), (5, none)] ∧
      chat_with_document docId env =
        (chatFinish env ms [(8, some docId), (5, none)]).1) ∧
    (env.query 8 (some docId) = .error () → env.query 5 none = .error () →
      chatQueries docId env = [(8, some docId), (5, none)] ∧
      chat_with_document docId env =
        (chatFinish env [] [(8, some docId), (5, none)]).1) := by
  refine ⟨?_, ?_, ?_⟩
  · intro ms hq
    have h := chatCore_scoped docId env raws ms hidx hcl henc hvec hq
    exact ⟨by rw [chatQueries, h, chatFinish_queried],
      by rw [chat_with_document, h]⟩
  · intro ms hq1 hq2
    have h := chatCore_fallback docId env raws ms hidx hcl henc hvec hq1 hq2
    exact ⟨by rw [chatQueries, h, chatFinish_queried],
      by rw [chat_with_document, h]⟩
  · intro hq1 hq2
    have h := chatCore_bothFail docId env raws hidx hcl henc hvec hq1 hq2
    exact ⟨by rw [chatQueries, h, chatFinish_queried],
      by rw [chat_with_document, h]⟩

/-- Witness match for C9. -/
def mC9 : LegasAI.Match := ⟨7/10, 1, "Some chunk text."⟩

/-- Witness environment for C9: the scoped query raises, the unscoped
fallback succeeds. -/
def envC9 : ChatEnv :=
  { indexConfigured := true
    clientConfigured := true
    encodeR := .ok [List.replicate 768 (1 : ℚ)]
    query := fun k f => if k = 5 ∧ f = none then .ok [mC9] else .error ()
    groq := fun _ => .ok "answer"
    elapsed := 0 }

set_option maxRecDepth 8192 in
/-- Witness for C9: the fallback path issues exactly the two recorded
queries and continues with the fallback's matches. -/
theorem chat_query_scoping_and_fallback_witness :
    envC9.query 8 (some 1) = .error () ∧ envC9.query 5 none = .ok [mC9] ∧
    chatQueries 1 envC9 = [(8, some 1), (5, none)] ∧
    chat_with_document 1 envC9 =
      (chatFinish envC9 [mC9] [(8, some 1), (5, none)]).1 := by
  have h := (chat_query_scoping_and_fallback 1 envC9
    [List.replicate 768 (1 : ℚ)] rfl rfl rfl (by decide)).2.1 [mC9] rfl rfl
  exact ⟨rfl, rfl, h.1, h.2⟩

/-- C4: `store_document_embeddings` is a total boolean function (the
Python code catches every exception, so the model never fails), and it
returns `true` iff the index is configured, the text is non-blank,
splitting yields at least one chunk, embedding yields at least one
valid vector, every batch of the payload is accepted by the upsert, and
the verification query scoped to the document id returns at least one
match; moreover every uploaded batch holds at most 50 records. -/
theorem store_embeddings_success_iff (docId : Nat)
    (extra : List (String × String)) (env : StoreEnv) :
    (store_document_embeddings docId extra env = true ↔
      env.indexConfigured = true ∧
      ¬ (env.text = "" ∨ pyStrip env.text = "") ∧
      ∃ chunks raws,
        env.chunksR = .ok chunks ∧ chunks ≠ [] ∧
        env.encodeR = .ok raws ∧
        embedFilter embedding_dim raws ≠ [] ∧
        (batches50 (storePayload docId extra chunks
          (embedFilter embedding_dim raws))).all env.upsert = true ∧
        ∃ found, env.verify (some docId) = .ok found ∧ found ≠ []) ∧
    ∀ l : List PineRecord, ∀ b ∈ batches50 l, b.length ≤ 50 := by
  refine ⟨?_, fun l => batches50_sizes l⟩
  obtain ⟨idx, text, chR, enR, up, ver⟩ := env
  cases idx with
  | false => simp [store_document_embeddings]
  | true =>
    by_cases hblank : text = "" ∨ pyStrip text = ""
    · simp [store_document_embeddings, hblank]
    · cases chR with
      | error e => simp [store_document_embeddings, hblank]
      | ok chunks =>
        by_cases hch : chunks.length = 0
        · have hc0 : chunks = [] := List.length_eq_zero.1 hch
          subst hc0
          simp [store_document_embeddings, hblank]
        · have hcne : chunks ≠ [] := fun hc => hch (by simp [hc])
          cases enR with
          | error e => simp [store_document_embeddings, hblank, hch]
          | ok raws =>
            by_cases hv : (embedFilter embedding_dim raws).length = 0
            · have hv0 : embedFilter embedding_dim raws = [] :=
                List.length_eq_zero.1 hv
              simp [store_document_embeddings, hblank, hch, hv0]
            · have hvne : embedFilter embedding_dim raws ≠ [] :=
                fun hc => hv (by simp [hc])
              have hpay : ¬ ((storePayload docId extra chunks
                  (embedFilter embedding_dim raws)).length = 0) := by
                rw [storePayload_length]
                omega
              by_cases hup : (batches50 (storePayload docId extra chunks
                  (embedFilter embedding_dim raws))).all up = true
              · cases hw : ver (some docId) with
                | error e =>
                  simp [store_document_embeddings, hblank, hch, hpay, hup, hw,
                    hcne, hvne]
                | ok found =>
                  simp only [store_document_embeddings, hblank, hch, hpay, hup,
                    hw, hcne, hvne]
                  simp [hcne, hvne]
                  exact fun _ => List.all_eq_true.1 hup
              · simp [store_document_embeddings, hblank, hch, hpay, hup,
                  hcne, hvne]
                intro hall
                exact (hup (List.all_eq_true.2 hall)).elim

/-- Witness match for C4: the verification query's returned match. -/
def mC4 : LegasAI.Match := ⟨1, 0, "chunk"⟩

/-- Witness environment for C4: one chunk, one valid vector, accepting
upsert, verification scoped to document 7 succeeds. -/
def envC4 : StoreEnv :=
  { indexConfigured := true
    text := "A short legal document."
    chunksR := .ok ["A short legal document."]
    encodeR := .ok [List.replicate 768 (1 : ℚ)]
    upsert := fun _ => true
    verify := fun f => if f = some 7 then .ok [mC4] else .error () }

set_option maxRecDepth 8192 in
/-- Witness for C4: the success conditions hold concretely, so storage
reports success. -/
theorem store_embeddings_success_iff_witness :
    envC4.verify (some 7) = .ok [mC4] ∧
    store_document_embeddings 7 [] envC4 = true := by
  refine ⟨rfl, ((store_embeddings_success_iff 7 [] envC4).1).2 ?_⟩
  refine ⟨rfl, by decide, ["A short legal document."],
    [List.replicate 768 (1 : ℚ)], rfl, by decide, rfl, by decide, ?_,
    [mC4], rfl, by decide⟩
  simp only [List.all_eq_true]
  intro x hx
  rfl

end LegasAI
